import Mathlib

/-! The authentication core of monev-backend, `src/app.js`.

A shallow embedding of the Express application in `src/app.js`: the two
middlewares (`authenticateToken`, `authorize`) and the four routes
(`/register`, `/login`, `/refetch`, `/admin`), followed by the properties of
the specification that are stated about them.

* JavaScript values that reach the handlers are JSON documents (`Json`);
  `undefined` is `none` of `Option Json`.
* A thrown JavaScript error is `JsError`; a function that may throw returns
  `Except JsError _`.
* The collaborators the file requires as packages (`pg`, `bcrypt`,
  `jsonwebtoken`, `express-validator`) are parameters of the handlers
  (`Db`, `Env`), so a theorem about a handler holds for every behaviour of
  them.  Two reference instances are given: the credential store with its
  uniqueness constraint (`credentialStore`) and the token signer and
  verifier (`refSign`, `refVerify`) over a codec for base64url and the MAC.
* The clock is the argument `now`, the value of `Date.now()` in
  milliseconds.  Requests are handled one after the other.
-/

set_option autoImplicit false
set_option maxRecDepth 16384

namespace MonevBackend

/-! ## Values, errors, requests and responses -/

/-- JSON documents; numbers are the integer-valued ones, the keys of an
object are taken to be distinct. -/
inductive Json where
  | null
  | bool (b : Bool)
  | num (n : Int)
  | str (s : String)
  | arr (items : List Json)
  | obj (fields : List (String × Json))

instance : Inhabited Json := ⟨Json.null⟩

/-- A thrown JavaScript error: its `name`, its `message` and its `code` property. -/
structure JsError where
  name : String
  message : String
  code : Option Json := none

/-- The error of reading a property of `undefined` or `null`. -/
def typeError : JsError := ⟨"TypeError", "Cannot read properties of undefined", none⟩

/-- The properties of an object literal as they are serialised: a property
whose value is `undefined` is left out. -/
def presentFields (fs : List (String × Option Json)) : List (String × Json) :=
  fs.filterMap fun kv => kv.2.map fun v => (kv.1, v)

/-- An object literal as a JSON document. -/
def mkObj (fs : List (String × Option Json)) : Json := Json.obj (presentFields fs)

/-- Property read `v.key` (also one name of a destructuring pattern): throws
on `undefined` and `null`, is `undefined` on a value that has no such property. -/
def prop (v : Option Json) (key : String) : Except JsError (Option Json) :=
  match v with
  | none => .error typeError
  | some Json.null => .error typeError
  | some (Json.obj fs) => .ok (fs.lookup key)
  | some _ => .ok none

/-- The HTTP response a handler sends: status and JSON body. -/
structure Response where
  status : Nat
  body : Json

/-- The request as the handlers see it: `req.headers`, `req.body`, `req.user`. -/
structure Request where
  headers : List (String × String)
  body : Option Json
  user : Option Json := none

/-- The outcome of a middleware: a response was sent, or `next()` was called
with the (possibly updated) request. -/
inductive MwResult where
  | respond (r : Response)
  | next (req : Request)

/-- The database as the handlers use it, over a store state `σ`: the two SQL
statements of the file, each of which may fail with the driver's error. -/
structure Db (σ : Type) where
  /-- `INSERT INTO users (data) VALUES ($1)`. -/
  insertUser : σ → Json → Except JsError σ
  /-- `SELECT data FROM users WHERE data->>'email' = $1`: the `data` of each row. -/
  selectByEmail : σ → Option Json → Except JsError (List Json)

/-- The other collaborators: environment, validator, password hasher, token library. -/
structure Env where
  /-- The value of `process.env.JWT_SECRET`. -/
  jwtSecret : Option String
  /-- The errors `validationResult(req).array()` of the `/register` validators. -/
  validationErrors : Option Json → List Json
  /-- `bcrypt.hash(data, rounds)`; the third argument is the fresh salt. -/
  bcryptHash : Option Json → Nat → String → Except JsError String
  /-- `bcrypt.compare(data, hash)`. -/
  bcryptCompare : Option Json → Option Json → Except JsError Bool
  /-- `jwt.sign(payload, secret, { expiresIn })` at time `now`. -/
  jwtSign : Json → Option String → String → Nat → Except JsError String
  /-- `jwt.verify(token, secret, callback)` at time `now`: the callback's `err` or `user`. -/
  jwtVerify : String → Option String → Nat → Except JsError Json

/-! ## Response bodies -/

def errorBody (msg : String) : Json := Json.obj [("error", Json.str msg)]

def serverError : Response := ⟨500, errorBody "Terjadi kesalahan server."⟩

def invalidCredentials : Response := ⟨400, errorBody "Email atau password salah."⟩

def duplicateEmail : Response := ⟨400, errorBody "Email sudah terdaftar."⟩

def accessDenied : Response := ⟨403, errorBody "Akses ditolak."⟩

def tokenMissing : Response := ⟨401, errorBody "Akses ditolak. Token tidak ditemukan."⟩

def tokenInvalid : Response := ⟨403, errorBody "Token tidak valid."⟩

def userNotFound : Response := ⟨404, errorBody "Pengguna tidak ditemukan."⟩

/-! ## Middlewares -/

/-- The pieces of `s.split(sep)` for a one-character separator, on the
characters of the string. -/
def splitOnChar (sep : Char) : List Char → List (List Char)
  | [] => [[]]
  | c :: cs =>
    match splitOnChar sep cs with
    | [] => [[c]]
    | w :: ws => if c = sep then [] :: w :: ws else (c :: w) :: ws

/-- The value of `authHeader && authHeader.split(' ')[1]`. -/
def tokenOf (authHeader : Option String) : Option String :=
  match authHeader with
  | none => none
  | some h =>
    if h = "" then some ""
    else ((splitOnChar ' ' h.toList).get? 1).map String.mk

/-- JavaScript `!token` for a string or `undefined`. -/
def noToken : Option String → Bool
  | none => true
  | some t => t == ""

/-- One run of `authenticateToken`: the arguments of each `jwt.verify` call
it made, and its outcome. -/
structure AuthRun where
  verifyCalls : List (String × Option String)
  result : MwResult

/-- The middleware `authenticateToken` (lines 48-57). -/
def authenticateToken (env : Env) (now : Nat) (req : Request) : AuthRun :=
  let authHeader := req.headers.lookup "authorization"
  let token := tokenOf authHeader
  if noToken token then ⟨[], .respond tokenMissing⟩
  else
    let t := token.getD ""
    match env.jwtVerify t env.jwtSecret now with
    | .error _ => ⟨[(t, env.jwtSecret)], .respond tokenInvalid⟩
    | .ok user => ⟨[(t, env.jwtSecret)], .next { req with user := some user }⟩

/-- JavaScript `userRole !== role` for a string `role`. -/
def strictNe (userRole : Option Json) (role : String) : Bool :=
  match userRole with
  | some (Json.str u) => u != role
  | _ => true

/-- The middleware `authorize(role)` (lines 37-45); reading `req.user.role`
throws when `req.user` is `undefined` or `null`. -/
def authorize (role : String) (req : Request) : Except JsError MwResult :=
  match prop req.user "role" with
  | .error e => .error e
  | .ok userRole =>
    if strictNe userRole role then .ok (.respond accessDenied)
    else .ok (.next req)

/-! ## Routes -/

/-- The `catch` block of `/register` (lines 95-100), applied to the caught error. -/
def registerCatch (err : JsError) : Response :=
  match err.code with
  | some (Json.str c) => if c = "23505" then duplicateEmail else serverError
  | _ => serverError

/-- The body of a successful registration. -/
def registered (newUser : Json) : Response :=
  ⟨201, Json.obj [("message", Json.str "Registrasi berhasil!"), ("user", newUser)]⟩

/-- The document `userData` built on lines 79-83. -/
def userData (email : Option Json) (hashedPassword : String) (role : Option Json) : Json :=
  mkObj [("email", email), ("password", some (Json.str hashedPassword)), ("role", role)]

/-- The `try` block of `/register` (lines 74-94) from the store state `s`:
the outcome and the store state it leaves. -/
def registerTry {σ : Type} (db : Db σ) (env : Env) (salt : String) (s : σ)
    (email password role : Option Json) : Except JsError Response × σ :=
  match env.bcryptHash password 10 salt with
  | .error e => (.error e, s)
  | .ok hashedPassword =>
    match db.insertUser s (userData email hashedPassword role) with
    | .error e => (.error e, s)
    | .ok s1 =>
      match db.selectByEmail s1 email with
      | .error e => (.error e, s1)
      | .ok [] => (.error typeError, s1)
      | .ok (newUser :: _) => (.ok (registered newUser), s1)

/-- The handler of `POST /register` (lines 67-102).  The result is the
response sent, or the error the handler lets escape (the destructuring on
line 72 stands outside the `try`). -/
def register {σ : Type} (db : Db σ) (env : Env) (salt : String) (s : σ)
    (req : Request) : Except JsError Response × σ :=
  let errors := env.validationErrors req.body
  if !errors.isEmpty then (.ok ⟨400, Json.obj [("errors", Json.arr errors)]⟩, s)
  else
    match prop req.body "email", prop req.body "password", prop req.body "role" with
    | .ok email, .ok password, .ok role =>
      match registerTry db env salt s email password role with
      | (.ok r, s1) => (.ok r, s1)
      | (.error err, s1) => (.ok (registerCatch err), s1)
    | .error e, _, _ => (.error e, s)
    | _, .error e, _ => (.error e, s)
    | _, _, .error e => (.error e, s)

/-- The body of a successful login. -/
def loggedIn (token : String) (updatedUser : Json) : Response :=
  ⟨200, Json.obj [("token", Json.str token), ("user", updatedUser)]⟩

/-- The `try` block of `/login` (lines 109-133). -/
def loginTry {σ : Type} (db : Db σ) (env : Env) (now : Nat) (s : σ)
    (email password : Option Json) : Except JsError Response :=
  match db.selectByEmail s email with
  | .error e => .error e
  | .ok [] => .ok invalidCredentials
  | .ok (user :: _) =>
    match prop (some user) "password" with
    | .error e => .error e
    | .ok storedHash =>
      match env.bcryptCompare password storedHash with
      | .error e => .error e
      | .ok false => .ok invalidCredentials
      | .ok true =>
        match prop (some user) "email", prop (some user) "role" with
        | .ok uEmail, .ok uRole =>
          match env.jwtSign (mkObj [("email", uEmail), ("role", uRole)]) env.jwtSecret "1h" now with
          | .error e => .error e
          | .ok token =>
            match db.selectByEmail s email with
            | .error e => .error e
            | .ok [] => .error typeError
            | .ok (updatedUser :: _) => .ok (loggedIn token updatedUser)
        | .error e, _ => .error e
        | _, .error e => .error e

/-- The handler of `POST /login` (lines 106-138); the destructuring on line
107 stands outside the `try`. -/
def login {σ : Type} (db : Db σ) (env : Env) (now : Nat) (s : σ)
    (req : Request) : Except JsError Response :=
  match prop req.body "email", prop req.body "password" with
  | .ok email, .ok password =>
    match loginTry db env now s email password with
    | .ok r => .ok r
    | .error _ => .ok serverError
  | .error e, _ => .error e
  | _, .error e => .error e

/-- The handler of `GET /refetch` (lines 141-159), run after `authenticateToken`. -/
def refetchHandler {σ : Type} (db : Db σ) (s : σ) (req : Request) : Response :=
  match prop req.user "email" with
  | .error _ => serverError
  | .ok email =>
    match db.selectByEmail s email with
    | .error _ => serverError
    | .ok [] => userNotFound
    | .ok (user :: _) => ⟨200, Json.obj [("user", user)]⟩

/-- The route `GET /refetch`: `authenticateToken`, then the handler. -/
def refetchRoute {σ : Type} (db : Db σ) (env : Env) (now : Nat) (s : σ)
    (req : Request) : Response :=
  match (authenticateToken env now req).result with
  | .respond r => r
  | .next req1 => refetchHandler db s req1

/-- The handler of `GET /admin` (line 163). -/
def adminHandler : Response := ⟨200, Json.obj [("message", Json.str "Halo Admin!")]⟩

/-- The route `GET /admin`: `authenticateToken`, `authorize('admin')`, the
handler; an error thrown by a middleware goes to the error handler of lines
167-170. -/
def adminRoute (env : Env) (now : Nat) (req : Request) : Response :=
  match (authenticateToken env now req).result with
  | .respond r => r
  | .next req1 =>
    match authorize "admin" req1 with
    | .error _ => serverError
    | .ok (.respond r) => r
    | .ok (.next _) => adminHandler

/-- A request to one of the three routes that touch the store, with the
clock value or the salt its handling draws. -/
inductive ApiCall where
  | register (salt : String) (req : Request)
  | login (now : Nat) (req : Request)
  | refetch (now : Nat) (req : Request)

/-- Handling one request from store state `s`: the store state afterwards. -/
def stepStore {σ : Type} (db : Db σ) (env : Env) (s : σ) : ApiCall → σ
  | .register salt req => (register db env salt s req).2
  | .login _ _ => s
  | .refetch _ _ => s

/-- Handling a sequence of requests, one after the other. -/
def runStore {σ : Type} (db : Db σ) (env : Env) (s : σ) (calls : List ApiCall) : σ :=
  calls.foldl (stepStore db env) s

/-- The outcomes of a sequence of `/register` requests handled one after the
other from store state `s`, and the final store state. -/
def registerAll {σ : Type} (db : Db σ) (env : Env) (s : σ) :
    List (String × Request) → List (Except JsError Response) × σ
  | [] => ([], s)
  | (salt, req) :: rest =>
    let r := register db env salt s req
    let rs := registerAll db env r.2 rest
    (r.1 :: rs.1, rs.2)

/-! ## The token library -/

/-- Modelled from the spec: the two primitives of the token library (package
`jsonwebtoken`, not part of the source tree) that are left open: the
base64url text of a JSON value with its reading back, and the keyed
signature of a signing input for a named algorithm. -/
structure TokenCodec where
  encode : Json → String
  decode : String → Option Json
  mac : String → String → String → String

/-- Modelled from the spec: the header the signer of `jsonwebtoken` writes. -/
def jwtHeader : Json := Json.obj [("alg", Json.str "HS256"), ("typ", Json.str "JWT")]

/-- Modelled from the spec: the clock of the token library (`jsonwebtoken`),
whole seconds, `Math.floor(Date.now() / 1000)`. -/
def clockTimestamp (now : Nat) : Int := ((now / 1000 : Nat) : Int)

/-- Modelled from the spec: the number of seconds of an `expiresIn` text in
`jsonwebtoken`; the file uses `'1h'` only, the fixed lifetime of one hour. -/
def timespan (expiresIn : String) : Option Int :=
  if expiresIn = "1h" then some 3600 else none

/-- Modelled from the spec: the text `a.b` of two segments of a token. -/
def dotted (a b : String) : String := String.mk (a.toList ++ '.' :: b.toList)

/-- Modelled from the spec: the compact token (`jsonwebtoken`) of a payload
signed with the key, algorithm HS256: header, payload and signature, joined
by dots. -/
def jwsSign (c : TokenCodec) (key : String) (payload : Json) : String :=
  dotted (dotted (c.encode jwtHeader) (c.encode payload))
    (c.mac "HS256" key (dotted (c.encode jwtHeader) (c.encode payload)))

/-- Modelled from the spec: the assignment `payload[key] = v` the signer of
`jsonwebtoken` makes: the value is replaced in place when the property
exists, the property is added at the end when it does not. -/
def setField (key : String) (v : Json) : List (String × Json) → List (String × Json)
  | [] => [(key, v)]
  | (k, w) :: rest => if k = key then (k, v) :: rest else (k, w) :: setField key v rest

/-- Modelled from the spec: TokenIssuer (`jwt.sign` of the package
`jsonwebtoken`, which is not part of the source tree).  It signs the claims
extended with `iat` (the time of issue, or the `iat` the payload brings) and
`exp = iat + expiresIn`, both in seconds, with the symmetric secret, and
refuses a missing secret, a payload that is no object or that carries `exp`
already. -/
def refSign (c : TokenCodec) (payload : Json) (secret : Option String)
    (expiresIn : String) (now : Nat) : Except JsError String :=
  match secret with
  | none => .error ⟨"Error", "secretOrPrivateKey must have a value", none⟩
  | some key =>
    if key = "" then .error ⟨"Error", "secretOrPrivateKey must have a value", none⟩
    else
      match payload, timespan expiresIn with
      | Json.obj fs, some span =>
        if (fs.lookup "exp").isSome then
          .error ⟨"Error", "the payload already has an exp property", none⟩
        else
          match fs.lookup "iat" with
          | some (Json.num t) =>
            let timestamp := if t = 0 then clockTimestamp now else t
            .ok (jwsSign c key (Json.obj
              (setField "exp" (Json.num (timestamp + span))
                (setField "iat" (Json.num timestamp) fs))))
          | some _ => .error ⟨"Error", "iat should be a number of seconds", none⟩
          | none =>
            let timestamp := clockTimestamp now
            .ok (jwsSign c key (Json.obj
              (setField "exp" (Json.num (timestamp + span))
                (setField "iat" (Json.num timestamp) fs))))
      | _, _ => .error ⟨"Error", "invalid expiresIn option", none⟩

/-- Modelled from the spec: the algorithms the verifier of `jsonwebtoken`
admits for a symmetric secret. -/
def hmacAlgorithms : List String := ["HS256", "HS384", "HS512"]

/-- Modelled from the spec: the checks of the verifier on a decoded payload.
The claims of a token are a JSON object: on it `nbf` and `exp` are compared
with the clock as in `jsonwebtoken`.  A payload that is no object (`null`,
a number, a text, an array) is a structural malformation and is refused as
an invalid token (spec 4.4); it is never accepted. -/
def checkValidity (payload : Json) (now : Nat) : Except JsError Json :=
  match payload with
  | Json.obj fs =>
    match fs.lookup "nbf" with
    | some (Json.num nbf) =>
      if nbf > clockTimestamp now then .error ⟨"NotBeforeError", "jwt not active", none⟩
      else
        match fs.lookup "exp" with
        | some (Json.num exp) =>
          if clockTimestamp now ≥ exp then .error ⟨"TokenExpiredError", "jwt expired", none⟩
          else .ok payload
        | some _ => .error ⟨"JsonWebTokenError", "invalid exp value", none⟩
        | none => .ok payload
    | some _ => .error ⟨"JsonWebTokenError", "invalid nbf value", none⟩
    | none =>
      match fs.lookup "exp" with
      | some (Json.num exp) =>
        if clockTimestamp now ≥ exp then .error ⟨"TokenExpiredError", "jwt expired", none⟩
        else .ok payload
      | some _ => .error ⟨"JsonWebTokenError", "invalid exp value", none⟩
      | none => .ok payload
  | _ => .error ⟨"JsonWebTokenError", "invalid token", none⟩

/-- Modelled from the spec: TokenVerifier (`jwt.verify` of the package
`jsonwebtoken`, which is not part of the source tree).  It splits the token
into its three segments, decodes header and payload, recomputes the
signature under the same secret and compares, rejects a token that is not
yet valid or whose `exp` has passed or whose payload is no object, and
hands back the decoded claims as they are; as in the package, it looks at
no other field of the claims. -/
def refVerify (c : TokenCodec) (token : String) (secret : Option String)
    (now : Nat) : Except JsError Json :=
  match splitOnChar '.' token.toList with
  | [h, p, sg] =>
    match c.decode (String.mk h), c.decode (String.mk p) with
    | some header, some payload =>
      match secret with
      | none => .error ⟨"JsonWebTokenError", "secret or public key must be provided", none⟩
      | some key =>
        if key = "" then
          .error ⟨"JsonWebTokenError", "secret or public key must be provided", none⟩
        else if sg = [] then .error ⟨"JsonWebTokenError", "jwt signature is required", none⟩
        else
          match prop (some header) "alg" with
          | .ok (some (Json.str alg)) =>
            if hmacAlgorithms.contains alg then
              if c.mac alg key (dotted (String.mk h) (String.mk p)) = String.mk sg then
                checkValidity payload now
              else .error ⟨"JsonWebTokenError", "invalid signature", none⟩
            else .error ⟨"JsonWebTokenError", "invalid algorithm", none⟩
          | _ => .error ⟨"JsonWebTokenError", "invalid algorithm", none⟩
    | _, _ => .error ⟨"JsonWebTokenError", "invalid token", none⟩
  | _ => .error ⟨"JsonWebTokenError", "jwt malformed", none⟩

/-- The environment whose token library is the reference signer and verifier
over the codec `c`. -/
def withTokens (c : TokenCodec) (env : Env) : Env :=
  { env with jwtSign := refSign c, jwtVerify := refVerify c }

/-- The request that presents `token` as a bearer token. -/
def bearer (token : String) : Request :=
  { headers := [("authorization", String.mk ("Bearer ".toList ++ token.toList))], body := none }

/-- The characters that may not occur in a token segment. -/
def plainText (s : String) : Prop := '.' ∉ s.toList ∧ ' ' ∉ s.toList

/-- What the round trip of one token uses of the codec: header and payload
read back from their encodings, and the three segments are base64url text
(no dot, no blank), the signature not empty. -/
structure TokenCodec.FitsAt (c : TokenCodec) (key : String) (payload : Json) : Prop where
  header_back : c.decode (c.encode jwtHeader) = some jwtHeader
  payload_back : c.decode (c.encode payload) = some payload
  header_plain : plainText (c.encode jwtHeader)
  payload_plain : plainText (c.encode payload)
  mac_plain : plainText (c.mac "HS256" key (dotted (c.encode jwtHeader) (c.encode payload)))
  mac_nonempty : c.mac "HS256" key (dotted (c.encode jwtHeader) (c.encode payload)) ≠ ""

/-- The payload the signer writes at time `now` for the claims of `/login`. -/
def issuedPayload (email role : Option Json) (now : Nat) : Json :=
  Json.obj (presentFields [("email", email), ("role", role)] ++
    [("iat", Json.num (clockTimestamp now)), ("exp", Json.num (clockTimestamp now + 3600))])

/-! ## The credential store -/

/-- Modelled from the spec: the lookup key of a stored document, its `email`
(`data->>'email'`); the users table and its constraint are not part of the
source tree.  A document whose `email` is no string has no key. -/
def emailKey : Json → Option String
  | Json.obj fs =>
    match fs.lookup "email" with
    | some (Json.str e) => some e
    | _ => none
  | _ => none

/-- Modelled from the spec: the error of the storage engine for a
unique-constraint violation, SQLSTATE `23505`, the code the `catch` block of
`/register` looks for. -/
def uniqueViolation : JsError :=
  ⟨"error", "duplicate key value violates unique constraint", some (Json.str "23505")⟩

/-- Modelled from the spec: whether a record with the email `e` is stored. -/
def hasEmail (s : List Json) (e : String) : Bool :=
  s.any fun d => emailKey d == some e

/-- Modelled from the spec: CredentialStore, the users table with its atomic
uniqueness constraint on the email (the table definition is not part of the
source tree).  `create` inserts unless a record with the same email exists,
in which case it fails with the unique-constraint violation and stores
nothing; `findByEmail` gives the records with that email, oldest first, and
none for a parameter that is no string. -/
def credentialStore : Db (List Json) where
  insertUser s doc :=
    match emailKey doc with
    | none => .ok (s ++ [doc])
    | some e => if hasEmail s e then .error uniqueViolation else .ok (s ++ [doc])
  selectByEmail s email :=
    match email with
    | some (Json.str e) => .ok (s.filter fun d => emailKey d == some e)
    | _ => .ok []

/-- At most one record per email. -/
def UniqueEmails (s : List Json) : Prop :=
  ∀ e : String, (s.filter fun d => emailKey d == some e).length ≤ 1

/-- A `/register` request, with its salt, that passes validation, carries the
email `e` and whose password the hasher accepts. -/
def RegistersEmail (env : Env) (e : String) (x : String × Request) : Prop :=
  env.validationErrors x.2.body = [] ∧
  prop x.2.body "email" = .ok (some (Json.str e)) ∧
  ∃ password role h, prop x.2.body "password" = .ok password ∧
    prop x.2.body "role" = .ok role ∧ env.bcryptHash password 10 x.1 = .ok h

/-! ## Sample data -/

/-- A sample signing secret. -/
def demoSecret : String := "s3cret"

/-- The payload of the sample token: the claims of an administrator, issued at 5 s. -/
def demoClaims : Json := issuedPayload (some (Json.str "a@x.com")) (some (Json.str "admin")) 5000

/-- The base64url text of the header `jwtHeader`. -/
def demoHeaderText : String := "eyJhbGciOiJIUzI1NiIsInR5cCI6IkpXVCJ9"

/-- The base64url text of `demoClaims`. -/
def demoClaimsText : String :=
  "eyJlbWFpbCI6ImFAeC5jb20iLCJyb2xlIjoiYWRtaW4iLCJpYXQiOjUsImV4cCI6MzYwNX0"

/-- A codec that knows three texts, the header, the sample claims and the
empty object, with the HMAC-SHA256 signatures of the two sample signing
inputs under `demoSecret`. -/
def demoCodec : TokenCodec where
  encode j :=
    match j with
    | Json.obj (("alg", _) :: _) => demoHeaderText
    | Json.obj [] => "e30"
    | _ => demoClaimsText
  decode s :=
    if s = demoHeaderText then some jwtHeader
    else if s = "e30" then some (Json.obj [])
    else if s = demoClaimsText then some demoClaims
    else none
  mac alg key input :=
    if input = dotted demoHeaderText demoClaimsText then
      "Ay7oEAd5d4xsOBryKfKsoU_ErupFTiQKRBg20QnRJHY"
    else if input = dotted demoHeaderText "e30" then
      "JXJ_RWHq_C9ZJbkrRGRg7NxSFm2hnVu5ToEa8Nx6OiU"
    else String.mk (alg.toList ++ key.toList)

/-- A sample environment: every request validates, the hasher writes the
salt before the reversed text, the token library is the reference one. -/
def demoEnv : Env where
  jwtSecret := some demoSecret
  validationErrors _ := []
  bcryptHash data _ salt :=
    match data with
    | some (Json.str p) => .ok (String.mk ('$' :: salt.toList ++ '$' :: p.toList.reverse))
    | _ => .error ⟨"Error", "data must be a string", none⟩
  bcryptCompare data hash :=
    match data, hash with
    | some (Json.str p), some (Json.str h) => .ok (h.toList.reverse.take p.length == p.toList)
    | _, _ => .error ⟨"Error", "data and hash must be strings", none⟩
  jwtSign := refSign demoCodec
  jwtVerify := refVerify demoCodec

/-- The sample token: the claims `demoClaims` signed with `demoSecret`. -/
def demoToken : String :=
  dotted (dotted demoHeaderText demoClaimsText) "Ay7oEAd5d4xsOBryKfKsoU_ErupFTiQKRBg20QnRJHY"

/-- The sample token with another signature. -/
def forgedToken : String := dotted (dotted demoHeaderText demoClaimsText) "forged"

/-- A token with a valid signature whose claims are the empty object. -/
def bareToken : String :=
  dotted (dotted demoHeaderText "e30") "JXJ_RWHq_C9ZJbkrRGRg7NxSFm2hnVu5ToEa8Nx6OiU"

/-- A registration body. -/
def demoBody (email password role : String) : Option Json :=
  some (Json.obj [("email", Json.str email), ("password", Json.str password),
    ("role", Json.str role)])

/-- A request with a body and no headers. -/
def post (body : Option Json) : Request := { headers := [], body := body }

/-- The record of the sample administrator, hashed by the sample hasher with salt `na`. -/
def demoRecord : Json :=
  Json.obj [("email", Json.str "a@x.com"), ("password", Json.str "$na$drowssapgnol"),
    ("role", Json.str "admin")]

/-- A store that holds the sample administrator only. -/
def demoStore : List Json := [demoRecord]

/-! ## Splitting a header -/

theorem splitOnChar_ne_nil (sep : Char) (l : List Char) : splitOnChar sep l ≠ [] := by
  cases l with
  | nil => simp [splitOnChar]
  | cons c cs =>
    simp only [splitOnChar]
    split
    · simp
    · split <;> simp

theorem splitOnChar_no_sep (sep : Char) (l : List Char) (h : sep ∉ l) :
    splitOnChar sep l = [l] := by
  induction l with
  | nil => rfl
  | cons c cs ih =>
    have hc : c ≠ sep := fun e => h (by simp [e])
    have hcs : sep ∉ cs := fun m => h (List.mem_cons_of_mem _ m)
    simp [splitOnChar, ih hcs, hc]

theorem splitOnChar_sep (sep : Char) (pre rest : List Char) (h : sep ∉ pre) :
    splitOnChar sep (pre ++ sep :: rest) = pre :: splitOnChar sep rest := by
  induction pre with
  | nil =>
    simp only [List.nil_append, splitOnChar]
    split
    · next hnil => exact absurd hnil (splitOnChar_ne_nil sep rest)
    · next w ws hw => simp [hw]
  | cons c cs ih =>
    have hc : c ≠ sep := fun e => h (by simp [e])
    have hcs : sep ∉ cs := fun m => h (List.mem_cons_of_mem _ m)
    simp [splitOnChar, ih hcs, hc]

/-- The second piece of a text with a separator: what stands between the
first and the second separator. -/
theorem splitOnChar_second (sep : Char) (pre rest : List Char) (h : sep ∉ pre) :
    (splitOnChar sep (pre ++ sep :: rest)).get? 1 = some (rest.takeWhile (· ≠ sep)) := by
  rw [splitOnChar_sep sep pre rest h]
  simp only [List.get?_cons_succ]
  induction rest with
  | nil => simp [splitOnChar]
  | cons c cs ih =>
    simp only [splitOnChar]
    split
    · next hnil => exact absurd hnil (splitOnChar_ne_nil sep cs)
    · next w ws hw =>
      rw [hw] at ih
      by_cases hc : c = sep
      · simp [hc]
      · simp at ih
        simp [hc, ih]

theorem dotted_ne_empty (a b : String) : dotted a b ≠ "" := by
  intro h
  have h2 : (dotted a b).toList = ("" : String).toList := congrArg String.toList h
  have h3 : (dotted a b).toList = a.toList ++ '.' :: b.toList := rfl
  have h4 : ("" : String).toList = [] := rfl
  rw [h3, h4] at h2
  simp at h2

/-! ## The middlewares -/

theorem tokenOf_no_blank (h : String) (hb : ' ' ∉ h.toList) : noToken (tokenOf (some h)) = true := by
  unfold tokenOf
  by_cases he : h = ""
  · simp [he, noToken]
  · have hs := splitOnChar_no_sep ' ' h.toList hb
    simp only [he, if_false, hs]
    rfl

theorem tokenOf_blank (pre rest : List Char) (hp : ' ' ∉ pre) :
    tokenOf (some (String.mk (pre ++ ' ' :: rest))) =
      some (String.mk (rest.takeWhile (· ≠ ' '))) := by
  unfold tokenOf
  have hne : String.mk (pre ++ ' ' :: rest) ≠ "" := by
    intro h
    have := congrArg String.toList h
    simp at this
  simp only [hne, if_false]
  have := splitOnChar_second ' ' pre rest hp
  simp only [String.toList] at *
  rw [this]
  rfl

theorem takeWhile_all (sep : Char) (l : List Char) (h : sep ∉ l) :
    l.takeWhile (· ≠ sep) = l := by
  rw [List.takeWhile_eq_self_iff]
  intro x hx
  simp only [ne_eq, decide_eq_true_eq]
  intro e
  exact h (e ▸ hx)

theorem tokenOf_bearer (token : String) (hb : ' ' ∉ token.toList) :
    tokenOf ((bearer token).headers.lookup "authorization") = some token := by
  have h1 : (bearer token).headers.lookup "authorization"
      = some (String.mk ("Bearer".toList ++ ' ' :: token.toList)) := by
    simp [bearer, List.lookup]
  rw [h1, tokenOf_blank _ _ (by decide), takeWhile_all _ _ hb]
  rfl

theorem authenticateToken_accepts (env : Env) (now : Nat) (req : Request) (t : String)
    (claims : Json) (ht : tokenOf (req.headers.lookup "authorization") = some t)
    (hne : t ≠ "") (hv : env.jwtVerify t env.jwtSecret now = .ok claims) :
    authenticateToken env now req =
      ⟨[(t, env.jwtSecret)], .next { req with user := some claims }⟩ := by
  simp [authenticateToken, ht, noToken, hne, hv]

theorem authenticateToken_rejects (env : Env) (now : Nat) (req : Request) (t : String)
    (e : JsError) (ht : tokenOf (req.headers.lookup "authorization") = some t)
    (hne : t ≠ "") (hv : env.jwtVerify t env.jwtSecret now = .error e) :
    authenticateToken env now req = ⟨[(t, env.jwtSecret)], .respond tokenInvalid⟩ := by
  simp [authenticateToken, ht, noToken, hne, hv]

theorem authenticateToken_missing (env : Env) (now : Nat) (req : Request)
    (ht : noToken (tokenOf (req.headers.lookup "authorization")) = true) :
    authenticateToken env now req = ⟨[], .respond tokenMissing⟩ := by
  simp [authenticateToken, ht]

theorem authenticateToken_next (env : Env) (now : Nat) (req req1 : Request)
    (h : (authenticateToken env now req).result = .next req1) :
    ∃ t claims, tokenOf (req.headers.lookup "authorization") = some t ∧ t ≠ "" ∧
      env.jwtVerify t env.jwtSecret now = .ok claims ∧
      req1 = { req with user := some claims } := by
  by_cases hno : noToken (tokenOf (req.headers.lookup "authorization")) = true
  · rw [authenticateToken_missing env now req hno] at h
    simp at h
  · cases ht : tokenOf (req.headers.lookup "authorization") with
    | none => simp [ht, noToken] at hno
    | some t =>
      have hne : t ≠ "" := by
        intro e
        simp [ht, noToken, e] at hno
      cases hv : env.jwtVerify t env.jwtSecret now with
      | error e =>
        rw [authenticateToken_rejects env now req t e ht hne hv] at h
        simp at h
      | ok claims =>
        rw [authenticateToken_accepts env now req t claims ht hne hv] at h
        simp at h
        exact ⟨t, claims, rfl, hne, hv, h.symm⟩

theorem authorize_matches (r : String) (req : Request) (u : Option Json)
    (hu : prop req.user "role" = .ok u) :
    (authorize r req = .ok (.next req) ↔ u = some (Json.str r)) ∧
    (u ≠ some (Json.str r) → authorize r req = .ok (.respond accessDenied)) := by
  unfold authorize
  rw [hu]
  by_cases h : u = some (Json.str r)
  · subst h
    simp [strictNe]
  · have hs : strictNe u r = true := by
      unfold strictNe
      split
      · next v =>
        simp only [bne_iff_ne, ne_eq]
        intro e
        exact h (by rw [e])
      · rfl
    simp [hs, h]

/-- C4: `authenticateToken` gates every protected handler.  Without an
Authorization header, or with a header that has no token component after its
first blank, it answers 401, makes no call of `jwt.verify` and does not call
`next()`; with a token whose verification fails it answers 403 and does not
call `next()`; it calls `next()` only when verification succeeded, and then
`req.user` is exactly the verified claims. -/
theorem authenticateToken_gate (env : Env) (now : Nat) (req : Request) :
    (req.headers.lookup "authorization" = none →
      authenticateToken env now req = ⟨[], .respond tokenMissing⟩) ∧
    (∀ h, req.headers.lookup "authorization" = some h → ' ' ∉ h.toList →
      authenticateToken env now req = ⟨[], .respond tokenMissing⟩) ∧
    (∀ pre rest, req.headers.lookup "authorization" = some (String.mk (pre ++ ' ' :: rest)) →
      ' ' ∉ pre → rest.takeWhile (· ≠ ' ') = [] →
      authenticateToken env now req = ⟨[], .respond tokenMissing⟩) ∧
    (∀ pre rest, req.headers.lookup "authorization" = some (String.mk (pre ++ ' ' :: rest)) →
      ' ' ∉ pre → rest.takeWhile (· ≠ ' ') ≠ [] →
      tokenOf (req.headers.lookup "authorization")
        = some (String.mk (rest.takeWhile (· ≠ ' '))) ∧
      String.mk (rest.takeWhile (· ≠ ' ')) ≠ "") ∧
    (noToken (tokenOf (req.headers.lookup "authorization")) = true →
      authenticateToken env now req = ⟨[], .respond tokenMissing⟩) ∧
    (∀ t e, tokenOf (req.headers.lookup "authorization") = some t → t ≠ "" →
      env.jwtVerify t env.jwtSecret now = .error e →
      authenticateToken env now req = ⟨[(t, env.jwtSecret)], .respond tokenInvalid⟩) ∧
    (∀ t claims, tokenOf (req.headers.lookup "authorization") = some t → t ≠ "" →
      env.jwtVerify t env.jwtSecret now = .ok claims →
      authenticateToken env now req =
        ⟨[(t, env.jwtSecret)], .next { req with user := some claims }⟩) ∧
    (∀ req1, (authenticateToken env now req).result = .next req1 →
      ∃ t claims, tokenOf (req.headers.lookup "authorization") = some t ∧ t ≠ "" ∧
        env.jwtVerify t env.jwtSecret now = .ok claims ∧
        req1 = { req with user := some claims }) := by
  refine ⟨?_, ?_, ?_, ?_, ?_, ?_, ?_, ?_⟩
  · intro h
    exact authenticateToken_missing env now req (by rw [h]; rfl)
  · intro h hh hb
    exact authenticateToken_missing env now req (by rw [hh]; exact tokenOf_no_blank h hb)
  · intro pre rest hh hp hr
    apply authenticateToken_missing
    rw [hh, tokenOf_blank pre rest hp, hr]
    rfl
  · intro pre rest hh hp hr
    refine ⟨by rw [hh, tokenOf_blank pre rest hp], ?_⟩
    intro h
    have h2 : String.mk (rest.takeWhile (· ≠ ' ')) = String.mk [] := h
    exact hr (by injection h2)
  · exact authenticateToken_missing env now req
  · intro t e ht hne hv
    exact authenticateToken_rejects env now req t e ht hne hv
  · intro t claims ht hne hv
    exact authenticateToken_accepts env now req t claims ht hne hv
  · intro req1 h
    exact authenticateToken_next env now req req1 h

/-- The gate on sample requests: no header, a header without a token, a
forged token, and the sample token. -/
theorem authenticateToken_gate_witness :
    authenticateToken demoEnv 5000 (post none) = ⟨[], .respond tokenMissing⟩ ∧
    authenticateToken demoEnv 5000 ⟨[("authorization", "Bearer")], none, none⟩
      = ⟨[], .respond tokenMissing⟩ ∧
    authenticateToken demoEnv 5000 (bearer forgedToken)
      = ⟨[(forgedToken, some demoSecret)], .respond tokenInvalid⟩ ∧
    authenticateToken demoEnv 5000 (bearer demoToken)
      = ⟨[(demoToken, some demoSecret)], .next { bearer demoToken with user := some demoClaims }⟩ :=
  ⟨(authenticateToken_gate demoEnv 5000 (post none)).1 rfl,
   (authenticateToken_gate demoEnv 5000 ⟨[("authorization", "Bearer")], none, none⟩).2.1
      "Bearer" rfl (by decide),
   (authenticateToken_gate demoEnv 5000 (bearer forgedToken)).2.2.2.2.2.1
      forgedToken ⟨"JsonWebTokenError", "invalid signature", none⟩ rfl
      (dotted_ne_empty _ _) rfl,
   (authenticateToken_gate demoEnv 5000 (bearer demoToken)).2.2.2.2.2.2.1
      demoToken demoClaims rfl (dotted_ne_empty _ _) rfl⟩

/-- C3: `authorize(role)` is an exact-match gate.  For every required role
`r` and every role claim `u` of the verified claims, the middleware calls
`next()` (and sends nothing) exactly when `u` is the string `r`; otherwise
it answers 403 and does not call `next()`.  So `/admin` answers 200 with the
message `Halo Admin!` for a verified token whose role claim is `admin` and
403 for one whose role claim is `visitor`. -/
theorem authorize_exact_match (r : String) (req : Request) (u : Option Json)
    (hu : prop req.user "role" = .ok u) :
    (authorize r req = .ok (.next req) ↔ u = some (Json.str r)) ∧
    (u ≠ some (Json.str r) → authorize r req = .ok (.respond accessDenied)) ∧
    accessDenied.status = 403 ∧
    (∀ (env : Env) (now : Nat) (areq : Request) (t : String) (claims : Json),
      tokenOf (areq.headers.lookup "authorization") = some t → t ≠ "" →
      env.jwtVerify t env.jwtSecret now = .ok claims →
      (prop (some claims) "role" = .ok (some (Json.str "admin")) →
        adminRoute env now areq = ⟨200, Json.obj [("message", Json.str "Halo Admin!")]⟩) ∧
      (prop (some claims) "role" = .ok (some (Json.str "visitor")) →
        adminRoute env now areq = accessDenied)) := by
  refine ⟨(authorize_matches r req u hu).1, (authorize_matches r req u hu).2, rfl, ?_⟩
  intro env now areq t claims ht hne hv
  have hrun := authenticateToken_accepts env now areq t claims ht hne hv
  constructor
  · intro hrole
    have h := (authorize_matches "admin" { areq with user := some claims } _ hrole).1.2 rfl
    simp only [adminRoute, hrun, h]
    rfl
  · intro hrole
    have h := (authorize_matches "admin" { areq with user := some claims } _ hrole).2
      (by simp)
    simp only [adminRoute, hrun, h]

/-- The gate on the sample administrator: `authorize('admin')` lets the
sample claims pass, and `/admin` answers the sample token with 200. -/
theorem authorize_exact_match_witness :
    authorize "admin" { bearer demoToken with user := some demoClaims }
      = .ok (.next { bearer demoToken with user := some demoClaims }) ∧
    adminRoute demoEnv 5000 (bearer demoToken)
      = ⟨200, Json.obj [("message", Json.str "Halo Admin!")]⟩ :=
  have h := authorize_exact_match "admin" { bearer demoToken with user := some demoClaims }
    (some (Json.str "admin")) rfl
  ⟨h.1.2 rfl, (h.2.2.2 demoEnv 5000 (bearer demoToken) demoToken demoClaims rfl
    (dotted_ne_empty _ _) rfl).1 rfl⟩

/-! ## Login -/

/-- C1: in `/login`, the response when no record exists for the email and
the response when a record exists but `bcrypt.compare` gives false are the
same response, status 400 with the one generic body, whatever the two
requests and stores are. -/
theorem login_same_rejection {σ τ : Type} (db1 : Db σ) (db2 : Db τ) (env1 env2 : Env)
    (now1 now2 : Nat) (s1 : σ) (s2 : τ) (req1 req2 : Request)
    (email1 password1 email2 password2 storedHash : Option Json) (user : Json) (rest : List Json)
    (he1 : prop req1.body "email" = .ok email1) (hp1 : prop req1.body "password" = .ok password1)
    (habsent : db1.selectByEmail s1 email1 = .ok [])
    (he2 : prop req2.body "email" = .ok email2) (hp2 : prop req2.body "password" = .ok password2)
    (hpresent : db2.selectByEmail s2 email2 = .ok (user :: rest))
    (hhash : prop (some user) "password" = .ok storedHash)
    (hwrong : env2.bcryptCompare password2 storedHash = .ok false) :
    login db1 env1 now1 s1 req1 = login db2 env2 now2 s2 req2 ∧
    login db1 env1 now1 s1 req1
      = .ok ⟨400, Json.obj [("error", Json.str "Email atau password salah.")]⟩ := by
  have h1 : login db1 env1 now1 s1 req1 = .ok invalidCredentials := by
    simp [login, he1, hp1, loginTry, habsent]
  have h2 : login db2 env2 now2 s2 req2 = .ok invalidCredentials := by
    simp [login, he2, hp2, loginTry, hpresent, hhash, hwrong]
  exact ⟨h1.trans h2.symm, h1⟩

/-- An unknown email and a wrong password for the sample administrator get
the same answer. -/
theorem login_same_rejection_witness :
    login credentialStore demoEnv 5000 demoStore
        (post (demoBody "nobody@x.com" "longpassword" "admin"))
      = login credentialStore demoEnv 5000 demoStore
        (post (demoBody "a@x.com" "wrongpassword" "admin")) ∧
    login credentialStore demoEnv 5000 demoStore
        (post (demoBody "nobody@x.com" "longpassword" "admin"))
      = .ok ⟨400, Json.obj [("error", Json.str "Email atau password salah.")]⟩ :=
  login_same_rejection credentialStore credentialStore demoEnv demoEnv 5000 5000
    demoStore demoStore (post (demoBody "nobody@x.com" "longpassword" "admin"))
    (post (demoBody "a@x.com" "wrongpassword" "admin"))
    (some (Json.str "nobody@x.com")) (some (Json.str "longpassword"))
    (some (Json.str "a@x.com")) (some (Json.str "wrongpassword"))
    (some (Json.str "$na$drowssapgnol")) demoRecord []
    rfl rfl rfl rfl rfl rfl rfl rfl

theorem prop_obj (fs : List (String × Json)) (key : String) :
    prop (some (Json.obj fs)) key = .ok (fs.lookup key) := rfl

/-- The run of `/login` once a record is found and the password check is done. -/
theorem login_found {σ : Type} (db : Db σ) (env : Env) (now : Nat) (s : σ) (req : Request)
    (email password : Option Json) (fs : List (String × Json)) (rest : List Json) (b : Bool)
    (he : prop req.body "email" = .ok email) (hp : prop req.body "password" = .ok password)
    (hstore : db.selectByEmail s email = .ok (Json.obj fs :: rest))
    (hcmp : env.bcryptCompare password (fs.lookup "password") = .ok b) :
    login db env now s req =
      if b then
        match env.jwtSign (mkObj [("email", fs.lookup "email"), ("role", fs.lookup "role")])
            env.jwtSecret "1h" now with
        | .ok token => .ok (loggedIn token (Json.obj fs))
        | .error _ => .ok serverError
      else .ok invalidCredentials := by
  cases b with
  | false => simp [login, he, hp, loginTry, hstore, prop_obj, hcmp]
  | true =>
    simp only [login, he, hp, loginTry, hstore, prop_obj, hcmp, if_true]
    cases env.jwtSign (mkObj [("email", fs.lookup "email"), ("role", fs.lookup "role")])
        env.jwtSecret "1h" now <;> rfl

/-- C2: when the store, the hasher and the signer do not throw (and the
rows the store gives are documents), `/login` answers 200 exactly when a
record for the email of the request is stored and the check of the
password of the request against the hash of that record gives true; the answer then carries the token that the signer made from the email
and the role of the stored record, nothing of the request body, with the
lifetime `1h`. -/
theorem login_success_iff {σ : Type} (db : Db σ) (env : Env) (now : Nat) (s : σ)
    (req : Request) (email password : Option Json) (rows : List Json)
    (he : prop req.body "email" = .ok email) (hp : prop req.body "password" = .ok password)
    (hstore : db.selectByEmail s email = .ok rows)
    (hrec : ∀ d ∈ rows, ∃ fs, d = Json.obj fs)
    (hhash : ∀ fs rest, rows = Json.obj fs :: rest →
      ∃ b, env.bcryptCompare password (fs.lookup "password") = .ok b)
    (hsign : ∀ fs rest, rows = Json.obj fs :: rest →
      ∃ t, env.jwtSign (mkObj [("email", fs.lookup "email"), ("role", fs.lookup "role")])
        env.jwtSecret "1h" now = .ok t) :
    ((∃ r, login db env now s req = .ok r ∧ r.status = 200) ↔
      ∃ fs rest, rows = Json.obj fs :: rest ∧
        env.bcryptCompare password (fs.lookup "password") = .ok true) ∧
    (∀ fs rest, rows = Json.obj fs :: rest →
      env.bcryptCompare password (fs.lookup "password") = .ok true →
      ∃ token,
        env.jwtSign (mkObj [("email", fs.lookup "email"), ("role", fs.lookup "role")])
          env.jwtSecret "1h" now = .ok token ∧
        login db env now s req
          = .ok ⟨200, Json.obj [("token", Json.str token), ("user", Json.obj fs)]⟩) := by
  have hyes : ∀ fs rest, rows = Json.obj fs :: rest →
      env.bcryptCompare password (fs.lookup "password") = .ok true →
      ∃ token,
        env.jwtSign (mkObj [("email", fs.lookup "email"), ("role", fs.lookup "role")])
          env.jwtSecret "1h" now = .ok token ∧
        login db env now s req
          = .ok ⟨200, Json.obj [("token", Json.str token), ("user", Json.obj fs)]⟩ := by
    intro fs rest hrows hcmp
    obtain ⟨t, ht⟩ := hsign fs rest hrows
    refine ⟨t, ht, ?_⟩
    rw [login_found db env now s req email password fs rest true he hp (hrows ▸ hstore) hcmp]
    simp [ht, loggedIn]
  refine ⟨⟨?_, ?_⟩, hyes⟩
  · rintro ⟨r, hr, hstatus⟩
    cases rows with
    | nil =>
      have : login db env now s req = .ok invalidCredentials := by
        simp [login, he, hp, loginTry, hstore]
      rw [this] at hr
      injection hr with hr
      rw [← hr] at hstatus
      simp [invalidCredentials] at hstatus
    | cons d rest =>
      obtain ⟨fs, hfs⟩ := hrec d (by simp)
      subst hfs
      obtain ⟨b, hb⟩ := hhash fs rest rfl
      cases b with
      | true => exact ⟨fs, rest, rfl, hb⟩
      | false =>
        rw [login_found db env now s req email password fs rest false he hp hstore hb] at hr
        simp only [Bool.false_eq_true, if_false] at hr
        injection hr with hr
        rw [← hr] at hstatus
        simp [invalidCredentials] at hstatus
  · rintro ⟨fs, rest, hrows, hcmp⟩
    obtain ⟨token, _, hl⟩ := hyes fs rest hrows hcmp
    exact ⟨_, hl, rfl⟩

/-- The sample administrator logs in with the right password and gets the
token signed over the stored email and role. -/
theorem login_success_iff_witness :
    login credentialStore demoEnv 5000 demoStore (post (demoBody "a@x.com" "longpassword" "x"))
      = .ok ⟨200, Json.obj [("token", Json.str demoToken), ("user", demoRecord)]⟩ := by
  have h := login_success_iff credentialStore demoEnv 5000 demoStore
    (post (demoBody "a@x.com" "longpassword" "x"))
    (some (Json.str "a@x.com")) (some (Json.str "longpassword")) demoStore rfl rfl rfl
    (by
      intro d hd
      simp only [demoStore, List.mem_singleton] at hd
      exact ⟨_, hd⟩)
    (by
      intro fs rest hrows
      simp only [demoStore, demoRecord, List.cons.injEq, Json.obj.injEq] at hrows
      rw [← hrows.1]
      exact ⟨true, rfl⟩)
    (by
      intro fs rest hrows
      simp only [demoStore, demoRecord, List.cons.injEq, Json.obj.injEq] at hrows
      rw [← hrows.1]
      exact ⟨demoToken, rfl⟩)
  obtain ⟨token, htoken, hlogin⟩ := h.2 _ [] rfl rfl
  have ht : token = demoToken := by
    have h2 : (Except.ok token : Except JsError String) = .ok demoToken := htoken.symm.trans rfl
    injection h2
  rw [← ht]
  exact hlogin

/-! ## Registration -/

theorem registerCatch_code (e : JsError) (h : e.code = some (Json.str "23505")) :
    registerCatch e = duplicateEmail := by
  simp [registerCatch, h]

theorem registerCatch_other (e : JsError) (h : e.code ≠ some (Json.str "23505")) :
    registerCatch e = serverError := by
  unfold registerCatch
  split
  · next c hc =>
    split
    · next hc2 => exact absurd (by rw [hc, hc2]) h
    · rfl
  · rfl

theorem register_eq {σ : Type} (db : Db σ) (env : Env) (salt : String) (s : σ)
    (req : Request) (email password role : Option Json)
    (hv : env.validationErrors req.body = [])
    (he : prop req.body "email" = .ok email) (hp : prop req.body "password" = .ok password)
    (hr : prop req.body "role" = .ok role) :
    register db env salt s req =
      match registerTry db env salt s email password role with
      | (.ok r, s1) => (.ok r, s1)
      | (.error err, s1) => (.ok (registerCatch err), s1) := by
  simp [register, hv, he, hp, hr]

/-- C5: in `/register`, a failure of the insert with the unique-constraint
code `23505` is answered 400 with the duplicate-email error, not with the
generic 500; every failure raised inside the handler, in hashing, in the
insert, in the re-read or in reading its first row, whose code is not
`23505` is answered 500 with the one generic body, which is the same for
every such error. -/
theorem register_error_mapping {σ : Type} (db : Db σ) (env : Env) (salt : String) (s : σ)
    (req : Request) (email password role : Option Json)
    (hv : env.validationErrors req.body = [])
    (he : prop req.body "email" = .ok email) (hp : prop req.body "password" = .ok password)
    (hr : prop req.body "role" = .ok role) :
    (∀ h e, env.bcryptHash password 10 salt = .ok h →
      db.insertUser s (userData email h role) = .error e →
      e.code = some (Json.str "23505") →
      register db env salt s req
        = (.ok ⟨400, Json.obj [("error", Json.str "Email sudah terdaftar.")]⟩, s)) ∧
    (∀ e, env.bcryptHash password 10 salt = .error e → e.code ≠ some (Json.str "23505") →
      register db env salt s req
        = (.ok ⟨500, Json.obj [("error", Json.str "Terjadi kesalahan server.")]⟩, s)) ∧
    (∀ h e, env.bcryptHash password 10 salt = .ok h →
      db.insertUser s (userData email h role) = .error e →
      e.code ≠ some (Json.str "23505") →
      register db env salt s req
        = (.ok ⟨500, Json.obj [("error", Json.str "Terjadi kesalahan server.")]⟩, s)) ∧
    (∀ h s1 e, env.bcryptHash password 10 salt = .ok h →
      db.insertUser s (userData email h role) = .ok s1 →
      db.selectByEmail s1 email = .error e → e.code ≠ some (Json.str "23505") →
      register db env salt s req
        = (.ok ⟨500, Json.obj [("error", Json.str "Terjadi kesalahan server.")]⟩, s1)) ∧
    (∀ h s1, env.bcryptHash password 10 salt = .ok h →
      db.insertUser s (userData email h role) = .ok s1 →
      db.selectByEmail s1 email = .ok [] →
      register db env salt s req
        = (.ok ⟨500, Json.obj [("error", Json.str "Terjadi kesalahan server.")]⟩, s1)) := by
  have hreg := register_eq db env salt s req email password role hv he hp hr
  refine ⟨?_, ?_, ?_, ?_, ?_⟩
  · intro h e hh hi hc
    rw [hreg]
    simp only [registerTry, hh, hi, registerCatch_code e hc]
    rfl
  · intro e hh hc
    rw [hreg]
    simp only [registerTry, hh, registerCatch_other e hc]
    rfl
  · intro h e hh hi hc
    rw [hreg]
    simp only [registerTry, hh, hi, registerCatch_other e hc]
    rfl
  · intro h s1 e hh hi hsel hc
    rw [hreg]
    simp only [registerTry, hh, hi, hsel, registerCatch_other e hc]
    rfl
  · intro h s1 hh hi hsel
    rw [hreg]
    simp only [registerTry, hh, hi, hsel]
    rfl

/-- Registering the sample administrator a second time is answered with the
duplicate-email error and leaves the store as it was. -/
theorem register_error_mapping_witness :
    register credentialStore demoEnv "na" demoStore
        (post (demoBody "a@x.com" "longpassword" "admin"))
      = (.ok ⟨400, Json.obj [("error", Json.str "Email sudah terdaftar.")]⟩, demoStore) :=
  (register_error_mapping credentialStore demoEnv "na" demoStore
    (post (demoBody "a@x.com" "longpassword" "admin"))
    (some (Json.str "a@x.com")) (some (Json.str "longpassword")) (some (Json.str "admin"))
    rfl rfl rfl rfl).1 "$na$drowssapgnol" uniqueViolation rfl rfl rfl

/-! ## The credential store -/

theorem emailKey_userData (e h : String) (role : Option Json) :
    emailKey (userData (some (Json.str e)) h role) = some e := by
  simp [userData, mkObj, presentFields, emailKey, List.lookup]

theorem filter_absent (s : List Json) (e : String) (h : hasEmail s e = false) :
    (s.filter fun d => emailKey d == some e) = [] := by
  rw [List.filter_eq_nil_iff]
  intro d hd hk
  have : hasEmail s e = true := by
    unfold hasEmail
    rw [List.any_eq_true]
    exact ⟨d, hd, hk⟩
  rw [h] at this
  exact absurd this (by decide)

/-- A successful insert keeps at most one record per email. -/
theorem insertUser_unique (s s1 : List Json) (doc : Json) (hs : UniqueEmails s)
    (hi : credentialStore.insertUser s doc = .ok s1) : UniqueEmails s1 := by
  simp only [credentialStore] at hi
  cases hk : emailKey doc with
  | none =>
    simp only [hk] at hi
    injection hi with hi
    subst hi
    intro e
    have : (([doc] : List Json).filter fun d => emailKey d == some e) = [] := by
      simp [List.filter, hk]
    simp only [List.filter_append, this, List.append_nil]
    exact hs e
  | some e0 =>
    simp only [hk] at hi
    by_cases hh : hasEmail s e0 = true
    · simp [hh] at hi
    · have hh2 : hasEmail s e0 = false := by simpa using hh
      simp only [hh2, Bool.false_eq_true, if_false] at hi
      injection hi with hi
      subst hi
      intro e
      by_cases hee : e0 = e
      · subst hee
        simp [List.filter_append, filter_absent s e0 hh2, List.filter, hk]
      · have hb : (e0 == e) = false := by simpa using hee
        have : (([doc] : List Json).filter fun d => emailKey d == some e) = [] := by
          simp [List.filter, hk, hb]
        simp only [List.filter_append, this, List.append_nil]
        exact hs e

theorem registerTry_store {σ : Type} (db : Db σ) (env : Env) (salt : String) (s : σ)
    (email password role : Option Json) :
    (registerTry db env salt s email password role).2 = s ∨
      ∃ doc, db.insertUser s doc = .ok (registerTry db env salt s email password role).2 := by
  unfold registerTry
  cases hh : env.bcryptHash password 10 salt with
  | error e => exact Or.inl rfl
  | ok h =>
    dsimp only
    cases hi : db.insertUser s (userData email h role) with
    | error e => exact Or.inl rfl
    | ok s1 =>
      refine Or.inr ⟨userData email h role, ?_⟩
      rw [hi]
      dsimp only
      cases hsel : db.selectByEmail s1 email with
      | error e => rfl
      | ok rows =>
        cases rows with
        | nil => rfl
        | cons d ds => rfl

theorem register_snd {σ : Type} (p : Except JsError Response × σ) :
    (match p with
      | (.ok r, s1) => ((.ok r : Except JsError Response), s1)
      | (.error err, s1) => (.ok (registerCatch err), s1)).2 = p.2 := by
  obtain ⟨x, s1⟩ := p
  cases x <;> rfl

/-- The store after a `/register` request is the store before it, or the
result of one successful insert. -/
theorem register_store {σ : Type} (db : Db σ) (env : Env) (salt : String) (s : σ)
    (req : Request) :
    (register db env salt s req).2 = s ∨
      ∃ doc, db.insertUser s doc = .ok (register db env salt s req).2 := by
  unfold register
  simp only
  split
  · exact Or.inl rfl
  · split
    · next email password role _ _ _ =>
      rw [register_snd]
      exact registerTry_store db env salt s email password role
    · exact Or.inl rfl
    · exact Or.inl rfl
    · exact Or.inl rfl

theorem prop_some_obj (v : Option Json) (key : String) (x : Json)
    (h : prop v key = .ok (some x)) : ∃ fs, v = some (Json.obj fs) := by
  unfold prop at h
  split at h
  · simp at h
  · simp at h
  · next fs => exact ⟨fs, rfl⟩
  · simp at h

/-- A registration of an email that is stored already leaves the store as it is. -/
theorem register_present (env : Env) (salt : String) (s : List Json) (req : Request)
    (e : String) (he : prop req.body "email" = .ok (some (Json.str e)))
    (hin : hasEmail s e = true) :
    (register credentialStore env salt s req).2 = s := by
  rcases register_store credentialStore env salt s req with h | ⟨doc, h⟩
  · exact h
  · by_cases hv : env.validationErrors req.body = []
    · obtain ⟨fs, hfs⟩ := prop_some_obj _ _ _ he
      have hp : prop req.body "password" = .ok (fs.lookup "password") := by rw [hfs]; rfl
      have hr : prop req.body "role" = .ok (fs.lookup "role") := by rw [hfs]; rfl
      rw [register_eq credentialStore env salt s req _ _ _ hv he hp hr, register_snd]
      unfold registerTry
      cases hh : env.bcryptHash (fs.lookup "password") 10 salt with
      | error e => rfl
      | ok hashed =>
        simp only [credentialStore, emailKey_userData, hin, if_true]
    · have : (!(env.validationErrors req.body).isEmpty) = true := by
        cases hl : env.validationErrors req.body with
        | nil => exact absurd hl hv
        | cons a as => rfl
      simp [register, this]

theorem stepStore_unique (env : Env) (s : List Json) (call : ApiCall) (hs : UniqueEmails s) :
    UniqueEmails (stepStore credentialStore env s call) := by
  cases call with
  | register salt req =>
    simp only [stepStore]
    rcases register_store credentialStore env salt s req with h | ⟨doc, h⟩
    · rw [h]; exact hs
    · exact insertUser_unique s _ doc hs h
  | login now req => exact hs
  | refetch now req => exact hs

theorem runStore_unique (env : Env) (calls : List ApiCall) :
    ∀ s : List Json, UniqueEmails s → UniqueEmails (runStore credentialStore env s calls) := by
  induction calls with
  | nil => intro s hs; exact hs
  | cons c cs ih =>
    intro s hs
    simp only [runStore, List.foldl_cons]
    exact ih _ (stepStore_unique env s c hs)

/-- A validated registration of an email that is stored already. -/
theorem register_duplicate (env : Env) (salt : String) (s : List Json) (req : Request)
    (e h : String) (password role : Option Json)
    (hv : env.validationErrors req.body = [])
    (he : prop req.body "email" = .ok (some (Json.str e)))
    (hp : prop req.body "password" = .ok password) (hr : prop req.body "role" = .ok role)
    (hh : env.bcryptHash password 10 salt = .ok h) (hin : hasEmail s e = true) :
    register credentialStore env salt s req = (.ok duplicateEmail, s) := by
  rw [register_eq credentialStore env salt s req _ password role hv he hp hr]
  simp only [registerTry, hh, credentialStore, emailKey_userData, hin, if_true]
  rfl

/-- A validated registration of an email that is not stored yet. -/
theorem register_fresh (env : Env) (salt : String) (s : List Json) (req : Request)
    (e h : String) (password role : Option Json)
    (hv : env.validationErrors req.body = [])
    (he : prop req.body "email" = .ok (some (Json.str e)))
    (hp : prop req.body "password" = .ok password) (hr : prop req.body "role" = .ok role)
    (hh : env.bcryptHash password 10 salt = .ok h) (hin : hasEmail s e = false) :
    register credentialStore env salt s req
      = (.ok (registered (userData (some (Json.str e)) h role)),
          s ++ [userData (some (Json.str e)) h role]) := by
  rw [register_eq credentialStore env salt s req _ password role hv he hp hr]
  simp only [registerTry, hh, credentialStore, emailKey_userData, hin, Bool.false_eq_true,
    if_false, List.filter_append, filter_absent s e hin, List.nil_append]
  simp [List.filter, emailKey_userData]

theorem hasEmail_append (s : List Json) (doc : Json) (e : String) (hk : emailKey doc = some e) :
    hasEmail (s ++ [doc]) e = true := by
  simp [hasEmail, hk]

theorem registerAll_duplicates (env : Env) (e : String) (regs : List (String × Request)) :
    ∀ s : List Json, hasEmail s e = true → (∀ x ∈ regs, RegistersEmail env e x) →
      registerAll credentialStore env s regs
        = (List.replicate regs.length (.ok duplicateEmail), s) := by
  induction regs with
  | nil => intro s _ _; rfl
  | cons x xs ih =>
    intro s hin hall
    obtain ⟨hv, he, password, role, h, hp, hr, hh⟩ := hall x (by simp)
    have hx := register_duplicate env x.1 s x.2 e h password role hv he hp hr hh hin
    have hrest := ih s hin (fun y hy => hall y (List.mem_cons_of_mem _ hy))
    obtain ⟨salt, req⟩ := x
    simp only [registerAll, hx, hrest, List.length_cons, List.replicate_succ]

/-- C6: at most one record per email.  From every store with at most one
record per email, every sequence of `/register`, `/login` and `/refetch`
requests leaves a store with at most one record per email; a registration
whose email is stored already adds no record, and answers 400 with the
duplicate-email error once it has passed validation and hashing; of `N`
validated registrations of one email that is not stored yet, handled one
after the other, exactly the first is answered 201 and the other `N - 1` get
the duplicate-email error, and exactly one record with that email is stored
afterwards. -/
theorem unique_emails_invariant (env : Env) (s : List Json) (hs : UniqueEmails s) :
    (∀ calls, UniqueEmails (runStore credentialStore env s calls)) ∧
    (∀ salt req e, prop req.body "email" = .ok (some (Json.str e)) → hasEmail s e = true →
      (register credentialStore env salt s req).2 = s) ∧
    (∀ salt req e, RegistersEmail env e (salt, req) → hasEmail s e = true →
      register credentialStore env salt s req
        = (.ok ⟨400, Json.obj [("error", Json.str "Email sudah terdaftar.")]⟩, s)) ∧
    (∀ e first rest, hasEmail s e = false →
      (∀ x ∈ first :: rest, RegistersEmail env e x) →
      ∃ doc,
        registerAll credentialStore env s (first :: rest)
          = (.ok ⟨201, Json.obj [("message", Json.str "Registrasi berhasil!"), ("user", doc)]⟩
              :: List.replicate rest.length (.ok duplicateEmail), s ++ [doc]) ∧
        ((s ++ [doc]).filter fun d => emailKey d == some e).length = 1 ∧
        UniqueEmails (s ++ [doc])) := by
  refine ⟨fun calls => runStore_unique env calls s hs, ?_, ?_, ?_⟩
  · intro salt req e he hin
    exact register_present env salt s req e he hin
  · intro salt req e hreg hin
    obtain ⟨hv, he, password, role, h, hp, hr, hh⟩ := hreg
    exact register_duplicate env salt s req e h password role hv he hp hr hh hin
  · intro e first rest hin hall
    obtain ⟨hv, he, password, role, h, hp, hr, hh⟩ := hall first (by simp)
    have hfirst := register_fresh env first.1 s first.2 e h password role hv he hp hr hh hin
    have hkey := emailKey_userData e h role
    have hrest := registerAll_duplicates env e rest (s ++ [userData (some (Json.str e)) h role])
      (hasEmail_append s _ e hkey) (fun y hy => hall y (List.mem_cons_of_mem _ hy))
    refine ⟨userData (some (Json.str e)) h role, ?_, ?_, ?_⟩
    · obtain ⟨salt, req⟩ := first
      simp only [registerAll, hfirst, hrest]
      rfl
    · simp [List.filter_append, filter_absent s e hin, List.filter, hkey]
    · have hins : credentialStore.insertUser s (userData (some (Json.str e)) h role)
          = .ok (s ++ [userData (some (Json.str e)) h role]) := by
        simp [credentialStore, hkey, hin]
      exact insertUser_unique s _ _ hs hins

/-- Three registrations of one email into the empty store: the first is
answered 201, the two others get the duplicate-email error, and one record
is stored. -/
theorem unique_emails_invariant_witness :
    UniqueEmails (runStore credentialStore demoEnv []
      [.register "na" (post (demoBody "a@x.com" "longpassword" "admin")),
       .login 5000 (post (demoBody "a@x.com" "longpassword" "admin")),
       .register "cl" (post (demoBody "a@x.com" "otherpassword" "dinas"))]) ∧
    ∃ doc,
      registerAll credentialStore demoEnv []
          [("na", post (demoBody "a@x.com" "longpassword" "admin")),
           ("cl", post (demoBody "a@x.com" "otherpassword" "dinas")),
           ("mg", post (demoBody "a@x.com" "thirdpassword" "admin"))]
        = (.ok ⟨201, Json.obj [("message", Json.str "Registrasi berhasil!"), ("user", doc)]⟩
            :: List.replicate 2 (.ok duplicateEmail), [] ++ [doc]) ∧
      (([] ++ [doc]).filter fun d => emailKey d == some "a@x.com").length = 1 ∧
      UniqueEmails ([] ++ [doc]) :=
  have h := unique_emails_invariant demoEnv [] (fun e => by simp)
  ⟨h.1 _, h.2.2.2 "a@x.com"
      ("na", post (demoBody "a@x.com" "longpassword" "admin"))
      [("cl", post (demoBody "a@x.com" "otherpassword" "dinas")),
       ("mg", post (demoBody "a@x.com" "thirdpassword" "admin"))] rfl
      (by
        intro x hx
        simp only [List.mem_cons, List.mem_singleton, List.not_mem_nil, or_false] at hx
        rcases hx with rfl | rfl | rfl
        · exact ⟨rfl, rfl, _, _, _, rfl, rfl, rfl⟩
        · exact ⟨rfl, rfl, _, _, _, rfl, rfl, rfl⟩
        · exact ⟨rfl, rfl, _, _, _, rfl, rfl, rfl⟩)⟩

theorem registerCatch_status (e : JsError) :
    (registerCatch e).status = 400 ∨ (registerCatch e).status = 500 := by
  unfold registerCatch
  split
  · split
    · exact Or.inl rfl
    · exact Or.inr rfl
  · exact Or.inr rfl

/-- C7: a successful `/register` with validated input.  When the request
carries the strings `email`, `password`, `role`, passes validation and is
answered 201, the hasher has given a hash for the password, the document
inserted is exactly email, hash and role (the hash under the key `password`,
not the plaintext of the request), and the `user` of the answer is the
record read back for that email, which is the one document just inserted. -/
theorem register_stores_hash (env : Env) (salt : String) (s : List Json) (req : Request)
    (e pw r : String) (resp : Response)
    (hv : env.validationErrors req.body = [])
    (he : prop req.body "email" = .ok (some (Json.str e)))
    (hp : prop req.body "password" = .ok (some (Json.str pw)))
    (hr : prop req.body "role" = .ok (some (Json.str r)))
    (hok : (register credentialStore env salt s req).1 = .ok resp)
    (h201 : resp.status = 201) :
    ∃ h, env.bcryptHash (some (Json.str pw)) 10 salt = .ok h ∧
      userData (some (Json.str e)) h (some (Json.str r))
        = Json.obj [("email", Json.str e), ("password", Json.str h), ("role", Json.str r)] ∧
      credentialStore.insertUser s
          (Json.obj [("email", Json.str e), ("password", Json.str h), ("role", Json.str r)])
        = .ok (s ++ [Json.obj [("email", Json.str e), ("password", Json.str h),
            ("role", Json.str r)]]) ∧
      (register credentialStore env salt s req).2
        = s ++ [Json.obj [("email", Json.str e), ("password", Json.str h),
            ("role", Json.str r)]] ∧
      credentialStore.selectByEmail
          (s ++ [Json.obj [("email", Json.str e), ("password", Json.str h),
            ("role", Json.str r)]]) (some (Json.str e))
        = .ok [Json.obj [("email", Json.str e), ("password", Json.str h),
            ("role", Json.str r)]] ∧
      resp = ⟨201, Json.obj [("message", Json.str "Registrasi berhasil!"),
        ("user", Json.obj [("email", Json.str e), ("password", Json.str h),
          ("role", Json.str r)])]⟩ := by
  cases hh : env.bcryptHash (some (Json.str pw)) 10 salt with
  | error err =>
    exfalso
    rw [register_eq credentialStore env salt s req _ _ _ hv he hp hr] at hok
    simp only [registerTry, hh] at hok
    injection hok with hok
    rcases registerCatch_status err with h4 | h5
    · rw [hok, h201] at h4; exact absurd h4 (by decide)
    · rw [hok, h201] at h5; exact absurd h5 (by decide)
  | ok h =>
    by_cases hin : hasEmail s e = true
    · exfalso
      rw [register_duplicate env salt s req e h _ _ hv he hp hr hh hin] at hok
      injection hok with hok
      rw [← hok] at h201
      exact absurd h201 (by decide)
    · have hin2 : hasEmail s e = false := by simpa using hin
      have hfresh := register_fresh env salt s req e h _ _ hv he hp hr hh hin2
      have hdoc : userData (some (Json.str e)) h (some (Json.str r))
          = Json.obj [("email", Json.str e), ("password", Json.str h), ("role", Json.str r)] :=
        rfl
      rw [hdoc] at hfresh
      have hkey : emailKey (Json.obj [("email", Json.str e), ("password", Json.str h),
          ("role", Json.str r)]) = some e := by
        rw [← hdoc]; exact emailKey_userData e h _
      refine ⟨h, rfl, hdoc, ?_, ?_, ?_, ?_⟩
      · simp only [credentialStore, hkey, hin2, Bool.false_eq_true, if_false]
      · rw [hfresh]
      · simp only [credentialStore, List.filter_append, filter_absent s e hin2, List.nil_append]
        simp [List.filter, hkey]
      · rw [hfresh] at hok
        injection hok with hok
        rw [← hok]
        rfl

/-- The scenario of the specification: registering `a@x.com` with the
password `longpassword` and the role `admin` into the empty store. -/
theorem register_stores_hash_witness :
    ∃ h, demoEnv.bcryptHash (some (Json.str "longpassword")) 10 "na" = .ok h ∧
      (register credentialStore demoEnv "na" []
          (post (demoBody "a@x.com" "longpassword" "admin"))).2
        = [] ++ [Json.obj [("email", Json.str "a@x.com"), ("password", Json.str h),
            ("role", Json.str "admin")]] ∧
      credentialStore.selectByEmail
          ([] ++ [Json.obj [("email", Json.str "a@x.com"), ("password", Json.str h),
            ("role", Json.str "admin")]]) (some (Json.str "a@x.com"))
        = .ok [Json.obj [("email", Json.str "a@x.com"), ("password", Json.str h),
            ("role", Json.str "admin")]] := by
  obtain ⟨h, hh, _, _, hstore, hread, _⟩ := register_stores_hash demoEnv "na" []
    (post (demoBody "a@x.com" "longpassword" "admin")) "a@x.com" "longpassword" "admin"
    ⟨201, Json.obj [("message", Json.str "Registrasi berhasil!"), ("user", demoRecord)]⟩
    rfl rfl rfl rfl rfl rfl
  exact ⟨h, hh, hstore, hread⟩

/-! ## Tokens -/

theorem split_three (H P S : List Char) (hH : '.' ∉ H) (hP : '.' ∉ P) (hS : '.' ∉ S) :
    splitOnChar '.' ((H ++ '.' :: P) ++ '.' :: S) = [H, P, S] := by
  rw [List.append_assoc, List.cons_append, splitOnChar_sep '.' H _ hH,
    splitOnChar_sep '.' P _ hP, splitOnChar_no_sep '.' S hS]

theorem jwsSign_toList (c : TokenCodec) (key : String) (payload : Json) :
    (jwsSign c key payload).toList
      = ((c.encode jwtHeader).toList ++ '.' :: (c.encode payload).toList) ++ '.' ::
        (c.mac "HS256" key (dotted (c.encode jwtHeader) (c.encode payload))).toList := rfl

theorem jwsSign_no_blank (c : TokenCodec) (key : String) (payload : Json)
    (hfit : c.FitsAt key payload) : ' ' ∉ (jwsSign c key payload).toList := by
  rw [jwsSign_toList]
  have h1 := hfit.header_plain.2
  have h2 := hfit.payload_plain.2
  have h3 := hfit.mac_plain.2
  simp only [List.mem_append, List.mem_cons, not_or]
  exact ⟨⟨h1, by decide, h2⟩, by decide, h3⟩

theorem jwsSign_ne_empty (c : TokenCodec) (key : String) (payload : Json) :
    jwsSign c key payload ≠ "" := by
  intro h
  have h2 := congrArg String.toList h
  rw [jwsSign_toList] at h2
  have h3 : ("" : String).toList = [] := rfl
  rw [h3] at h2
  simp at h2

/-- The verifier on a token made by `jwsSign` under the same key: signature
and structure pass, what is left are the validity checks on the payload. -/
theorem refVerify_signed (c : TokenCodec) (key : String) (payload : Json) (now : Nat)
    (hkey : key ≠ "") (hfit : c.FitsAt key payload) :
    refVerify c (jwsSign c key payload) (some key) now = checkValidity payload now := by
  unfold refVerify
  rw [jwsSign_toList, split_three _ _ _ hfit.header_plain.1 hfit.payload_plain.1
    hfit.mac_plain.1]
  have e1 : String.mk (c.encode jwtHeader).toList = c.encode jwtHeader := rfl
  have e2 : String.mk (c.encode payload).toList = c.encode payload := rfl
  have e3 : ∀ x : String, String.mk x.toList = x := fun _ => rfl
  have hsg : (c.mac "HS256" key (dotted (c.encode jwtHeader) (c.encode payload))).toList ≠ [] := by
    intro h
    apply hfit.mac_nonempty
    rw [← e3 (c.mac "HS256" key (dotted (c.encode jwtHeader) (c.encode payload))), h]
  simp only [e1, e2, e3, hfit.header_back, hfit.payload_back, hkey, if_false, hsg]
  have halg : prop (some jwtHeader) "alg" = .ok (some (Json.str "HS256")) := rfl
  have hmem : hmacAlgorithms.contains "HS256" = true := by decide
  simp only [halg, hmem, if_true]

theorem lookup_claims (email role : Option Json) (extra : List (String × Json)) (key : String)
    (h1 : key ≠ "email") (h2 : key ≠ "role") :
    (presentFields [("email", email), ("role", role)] ++ extra).lookup key
      = extra.lookup key := by
  have b1 : (key == "email") = false := by simpa using h1
  have b2 : (key == "role") = false := by simpa using h2
  cases email <;> cases role <;> simp [presentFields, List.lookup, b1, b2]

theorem lookup_email (email role : Option Json) (extra : List (String × Json))
    (h : extra.lookup "email" = none) :
    (presentFields [("email", email), ("role", role)] ++ extra).lookup "email" = email := by
  have b : ("email" == "role") = false := by decide
  cases email <;> cases role <;> simp [presentFields, List.lookup, b, h]

theorem lookup_role (email role : Option Json) (extra : List (String × Json))
    (h : extra.lookup "role" = none) :
    (presentFields [("email", email), ("role", role)] ++ extra).lookup "role" = role := by
  have b : ("role" == "email") = false := by decide
  cases email <;> cases role <;> simp [presentFields, List.lookup, b, h]

theorem setField_absent (key : String) (v : Json) (fs : List (String × Json))
    (h : fs.lookup key = none) : setField key v fs = fs ++ [(key, v)] := by
  induction fs with
  | nil => rfl
  | cons kw rest ih =>
    obtain ⟨k, w⟩ := kw
    by_cases hk : k = key
    · subst hk
      simp [List.lookup] at h
    · have hb : (key == k) = false := by
        simpa using fun e : key = k => hk e.symm
      simp only [List.lookup, hb] at h
      simp [setField, hk, ih h]

/-- The signer on the claims of `/login`. -/
theorem refSign_claims (c : TokenCodec) (key : String) (email role : Option Json) (now : Nat)
    (hkey : key ≠ "") :
    refSign c (mkObj [("email", email), ("role", role)]) (some key) "1h" now
      = .ok (jwsSign c key (issuedPayload email role now)) := by
  have hexp : (presentFields [("email", email), ("role", role)]).lookup "exp" = none := by
    have := lookup_claims email role [] "exp" (by decide) (by decide)
    simpa using this
  have hiat : (presentFields [("email", email), ("role", role)]).lookup "iat" = none := by
    have := lookup_claims email role [] "iat" (by decide) (by decide)
    simpa using this
  have hexp2 : (presentFields [("email", email), ("role", role)] ++
      [("iat", Json.num (clockTimestamp now))]).lookup "exp" = none := by
    rw [lookup_claims email role _ "exp" (by decide) (by decide)]
    rfl
  have hspan : timespan "1h" = some 3600 := by decide
  simp only [refSign, hkey, if_false, mkObj, hspan, hexp, hiat, Option.isSome_none,
    Bool.false_eq_true, issuedPayload, setField_absent "iat" _ _ hiat,
    setField_absent "exp" _ _ hexp2, List.append_assoc, List.singleton_append]

/-- The validity checks on an issued payload: it is valid until `exp`. -/
theorem checkValidity_issued (email role : Option Json) (t now : Nat) :
    checkValidity (issuedPayload email role t) now =
      if clockTimestamp now ≥ clockTimestamp t + 3600 then
        .error ⟨"TokenExpiredError", "jwt expired", none⟩
      else .ok (issuedPayload email role t) := by
  have hnbf : (presentFields [("email", email), ("role", role)] ++
      [("iat", Json.num (clockTimestamp t)), ("exp", Json.num (clockTimestamp t + 3600))]).lookup
      "nbf" = none := by
    rw [lookup_claims email role _ "nbf" (by decide) (by decide)]
    rfl
  have hexp : (presentFields [("email", email), ("role", role)] ++
      [("iat", Json.num (clockTimestamp t)), ("exp", Json.num (clockTimestamp t + 3600))]).lookup
      "exp" = some (Json.num (clockTimestamp t + 3600)) := by
    rw [lookup_claims email role _ "exp" (by decide) (by decide)]
    rfl
  simp only [checkValidity, issuedPayload, hnbf, hexp]

/-- Presenting an issued token as a bearer token at time `now`. -/
theorem authenticate_issued (c : TokenCodec) (env : Env) (key : String)
    (email role : Option Json) (t now : Nat)
    (hkey : key ≠ "") (hsecret : env.jwtSecret = some key)
    (hfit : c.FitsAt key (issuedPayload email role t)) :
    authenticateToken (withTokens c env) now (bearer (jwsSign c key (issuedPayload email role t)))
      = if clockTimestamp now ≥ clockTimestamp t + 3600 then
          ⟨[(jwsSign c key (issuedPayload email role t), some key)], .respond tokenInvalid⟩
        else
          ⟨[(jwsSign c key (issuedPayload email role t), some key)],
            .next { bearer (jwsSign c key (issuedPayload email role t)) with
              user := some (issuedPayload email role t) }⟩ := by
  have htok := tokenOf_bearer _ (jwsSign_no_blank c key _ hfit)
  have hne := jwsSign_ne_empty c key (issuedPayload email role t)
  have hs : (withTokens c env).jwtSecret = some key := hsecret
  have hv : (withTokens c env).jwtVerify (jwsSign c key (issuedPayload email role t))
      (withTokens c env).jwtSecret now = checkValidity (issuedPayload email role t) now := by
    rw [hs]
    exact refVerify_signed c key _ now hkey hfit
  rw [checkValidity_issued] at hv
  by_cases hexp : clockTimestamp now ≥ clockTimestamp t + 3600
  · rw [if_pos hexp] at hv
    rw [if_pos hexp, authenticateToken_rejects _ now _ _ _ htok hne hv, hs]
  · rw [if_neg hexp] at hv
    rw [if_neg hexp, authenticateToken_accepts _ now _ _ _ htok hne hv, hs]

theorem demoCodec_fits : demoCodec.FitsAt demoSecret demoClaims :=
  ⟨rfl, rfl, ⟨by decide, by decide⟩, ⟨by decide, by decide⟩, ⟨by decide, by decide⟩,
    by decide⟩

theorem demoCodec_fits_bare : demoCodec.FitsAt demoSecret (Json.obj []) :=
  ⟨rfl, rfl, ⟨by decide, by decide⟩, ⟨by decide, by decide⟩, ⟨by decide, by decide⟩,
    by decide⟩

/-- C8: token round trip.  For all claims `email`, `role`, the token that
`/login` has signed for them with the process secret and `expiresIn` `1h`,
presented as a bearer token at the time of issue under the same secret, is
accepted by `authenticateToken`, and the claims recovered as `req.user`
have the same `email` and the same `role`. -/
theorem token_round_trip (c : TokenCodec) (env : Env) (key : String)
    (email role : Option Json) (now : Nat)
    (hkey : key ≠ "") (hsecret : env.jwtSecret = some key)
    (hfit : c.FitsAt key (issuedPayload email role now)) :
    ∃ token user,
      (withTokens c env).jwtSign (mkObj [("email", email), ("role", role)])
        (withTokens c env).jwtSecret "1h" now = .ok token ∧
      authenticateToken (withTokens c env) now (bearer token)
        = ⟨[(token, some key)], .next { bearer token with user := some user }⟩ ∧
      prop (some user) "email" = .ok email ∧
      prop (some user) "role" = .ok role := by
  refine ⟨jwsSign c key (issuedPayload email role now), issuedPayload email role now, ?_, ?_,
    ?_, ?_⟩
  · have hs : (withTokens c env).jwtSecret = some key := hsecret
    rw [hs]
    exact refSign_claims c key email role now hkey
  · rw [authenticate_issued c env key email role now now hkey hsecret hfit]
    have : ¬ clockTimestamp now ≥ clockTimestamp now + 3600 := by omega
    rw [if_neg this]
  · simp only [issuedPayload, prop_obj]
    rw [lookup_email email role [("iat", Json.num (clockTimestamp now)),
      ("exp", Json.num (clockTimestamp now + 3600))] rfl]
  · simp only [issuedPayload, prop_obj]
    rw [lookup_role email role [("iat", Json.num (clockTimestamp now)),
      ("exp", Json.num (clockTimestamp now + 3600))] rfl]

/-- The sample token is the token of the sample administrator, and it comes
back as the sample claims. -/
theorem token_round_trip_witness :
    ∃ token user,
      (withTokens demoCodec demoEnv).jwtSign
        (mkObj [("email", some (Json.str "a@x.com")), ("role", some (Json.str "admin"))])
        (withTokens demoCodec demoEnv).jwtSecret "1h" 5000 = .ok token ∧
      authenticateToken (withTokens demoCodec demoEnv) 5000 (bearer token)
        = ⟨[(token, some demoSecret)], .next { bearer token with user := some user }⟩ ∧
      prop (some user) "email" = .ok (some (Json.str "a@x.com")) ∧
      prop (some user) "role" = .ok (some (Json.str "admin")) :=
  token_round_trip demoCodec demoEnv demoSecret (some (Json.str "a@x.com"))
    (some (Json.str "admin")) 5000 (by decide) rfl demoCodec_fits

theorem clock_lt_ms (now t : Nat) (h : clockTimestamp now < clockTimestamp t + 3600) :
    now < t + 3600000 := by
  unfold clockTimestamp at h
  omega

theorem clock_ge_ms (now t : Nat) (h : t + 3600000 ≤ now) :
    clockTimestamp now ≥ clockTimestamp t + 3600 := by
  unfold clockTimestamp
  omega

theorem clock_mono (t1 t2 : Nat) (h : t1 ≤ t2) : clockTimestamp t1 ≤ clockTimestamp t2 := by
  unfold clockTimestamp
  omega

/-- The error of the verifier for a token whose `exp` has passed. -/
theorem refVerify_issued (c : TokenCodec) (key : String) (email role : Option Json)
    (t now : Nat) (hkey : key ≠ "") (hfit : c.FitsAt key (issuedPayload email role t)) :
    refVerify c (jwsSign c key (issuedPayload email role t)) (some key) now =
      if clockTimestamp now ≥ clockTimestamp t + 3600 then
        .error ⟨"TokenExpiredError", "jwt expired", none⟩
      else .ok (issuedPayload email role t) := by
  rw [refVerify_signed c key _ now hkey hfit, checkValidity_issued]

/-- C9: token lifecycle.  The token that `/login` signs at time `t` carries
`exp`, the second of issue plus 3600 s; `authenticateToken` at time `now`
accepts it exactly while the clock of the verifier is before `exp`, so only
if `now` is less than one hour after `t`; once the clock has reached `exp`,
which it has from one hour after `t` on, verification fails with the
expired-token error, the request is answered 403 and the handlers of
`/admin` and `/refetch` are not run; a token once
refused as expired is refused as expired at every later time. -/
theorem token_expiry (c : TokenCodec) (env : Env) (key : String)
    (email role : Option Json) (t : Nat)
    (hkey : key ≠ "") (hsecret : env.jwtSecret = some key)
    (hfit : c.FitsAt key (issuedPayload email role t)) :
    ∃ token claims,
      (withTokens c env).jwtSign (mkObj [("email", email), ("role", role)])
        (withTokens c env).jwtSecret "1h" t = .ok token ∧
      prop (some claims) "exp" = .ok (some (Json.num (clockTimestamp t + 3600))) ∧
      (∀ now, clockTimestamp now < clockTimestamp t + 3600 →
        authenticateToken (withTokens c env) now (bearer token)
          = ⟨[(token, some key)], .next { bearer token with user := some claims }⟩) ∧
      (∀ now, (∃ req1, (authenticateToken (withTokens c env) now (bearer token)).result
          = .next req1) ↔ clockTimestamp now < clockTimestamp t + 3600) ∧
      (∀ now, (∃ req1, (authenticateToken (withTokens c env) now (bearer token)).result
          = .next req1) → now < t + 3600000) ∧
      (∀ now, t + 3600000 ≤ now → clockTimestamp t + 3600 ≤ clockTimestamp now) ∧
      (∀ now, clockTimestamp t + 3600 ≤ clockTimestamp now →
        refVerify c token (some key) now = .error ⟨"TokenExpiredError", "jwt expired", none⟩ ∧
        authenticateToken (withTokens c env) now (bearer token)
          = ⟨[(token, some key)], .respond ⟨403, errorBody "Token tidak valid."⟩⟩ ∧
        adminRoute (withTokens c env) now (bearer token) = tokenInvalid ∧
        ∀ (σ : Type) (db : Db σ) (s : σ),
          refetchRoute db (withTokens c env) now s (bearer token) = tokenInvalid) ∧
      (∀ t1 t2, t1 ≤ t2 →
        refVerify c token (some key) t1 = .error ⟨"TokenExpiredError", "jwt expired", none⟩ →
        refVerify c token (some key) t2 = .error ⟨"TokenExpiredError", "jwt expired", none⟩ ∧
        authenticateToken (withTokens c env) t2 (bearer token)
          = ⟨[(token, some key)], .respond tokenInvalid⟩) := by
  have hauth := fun now => authenticate_issued c env key email role t now hkey hsecret hfit
  have hver := fun now => refVerify_issued c key email role t now hkey hfit
  refine ⟨jwsSign c key (issuedPayload email role t), issuedPayload email role t, ?_, ?_, ?_,
    ?_, ?_, ?_, ?_, ?_⟩
  · have hs : (withTokens c env).jwtSecret = some key := hsecret
    rw [hs]
    exact refSign_claims c key email role t hkey
  · simp only [issuedPayload, prop_obj]
    rw [lookup_claims email role _ "exp" (by decide) (by decide)]
    rfl
  · intro now hlt
    rw [hauth now, if_neg (by omega)]
  · intro now
    rw [hauth now]
    constructor
    · rintro ⟨req1, h⟩
      by_cases hexp : clockTimestamp now ≥ clockTimestamp t + 3600
      · rw [if_pos hexp] at h
        simp at h
      · omega
    · intro hlt
      rw [if_neg (by omega)]
      exact ⟨_, rfl⟩
  · rintro now ⟨req1, h⟩
    rw [hauth now] at h
    by_cases hexp : clockTimestamp now ≥ clockTimestamp t + 3600
    · rw [if_pos hexp] at h
      simp at h
    · exact clock_lt_ms now t (by omega)
  · intro now hlate
    exact clock_ge_ms now t hlate
  · intro now hexp
    have ha : authenticateToken (withTokens c env) now
        (bearer (jwsSign c key (issuedPayload email role t)))
        = ⟨[(jwsSign c key (issuedPayload email role t), some key)], .respond tokenInvalid⟩ := by
      rw [hauth now, if_pos hexp]
    refine ⟨by rw [hver now, if_pos hexp], ha, ?_, ?_⟩
    · simp only [adminRoute, ha]
    · intro σ db s
      simp only [refetchRoute, ha]
  · intro t1 t2 hle h1
    have hexp1 : clockTimestamp t1 ≥ clockTimestamp t + 3600 := by
      by_contra hn
      rw [hver t1, if_neg hn] at h1
      simp at h1
    have hexp2 : clockTimestamp t2 ≥ clockTimestamp t + 3600 :=
      le_trans hexp1 (clock_mono t1 t2 hle)
    exact ⟨by rw [hver t2, if_pos hexp2], by rw [hauth t2, if_pos hexp2]⟩

/-- The token of the sample administrator, issued at 5 s: accepted one
millisecond before 3605 s, refused as expired at 3605 s. -/
theorem token_expiry_witness :
    ∃ token claims,
      (withTokens demoCodec demoEnv).jwtSign
        (mkObj [("email", some (Json.str "a@x.com")), ("role", some (Json.str "admin"))])
        (withTokens demoCodec demoEnv).jwtSecret "1h" 5000 = .ok token ∧
      prop (some claims) "exp" = .ok (some (Json.num 3605)) ∧
      authenticateToken (withTokens demoCodec demoEnv) 3604999 (bearer token)
        = ⟨[(token, some demoSecret)], .next { bearer token with user := some claims }⟩ ∧
      refVerify demoCodec token (some demoSecret) 3605000
        = .error ⟨"TokenExpiredError", "jwt expired", none⟩ ∧
      adminRoute (withTokens demoCodec demoEnv) 3605000 (bearer token) = tokenInvalid := by
  obtain ⟨token, claims, hsign, hexp, hacc, _, _, _, hlate, _⟩ :=
    token_expiry demoCodec demoEnv demoSecret (some (Json.str "a@x.com"))
      (some (Json.str "admin")) 5000 (by decide) rfl demoCodec_fits
  exact ⟨token, claims, hsign, hexp, hacc 3604999 (by decide),
    (hlate 3605000 (by decide)).1, (hlate 3605000 (by decide)).2.2.1⟩

/-- C10 (as stated, refuted): the token `bareToken` has a valid signature
under the sample secret and its claims are the empty object, with neither
`email` nor `role`; with the modelled verifier, `authenticateToken` does not
answer 403 but calls `next()` with these claims as `req.user`, and
`/refetch` goes on to look the missing email up. -/
theorem bare_token_accepted :
    bareToken = "eyJhbGciOiJIUzI1NiIsInR5cCI6IkpXVCJ9.e30.JXJ_RWHq_C9ZJbkrRGRg7NxSFm2hnVu5ToEa8Nx6OiU" ∧
    demoCodec.decode "e30" = some (Json.obj []) ∧
    demoCodec.mac "HS256" demoSecret "eyJhbGciOiJIUzI1NiIsInR5cCI6IkpXVCJ9.e30"
      = "JXJ_RWHq_C9ZJbkrRGRg7NxSFm2hnVu5ToEa8Nx6OiU" ∧
    refVerify demoCodec bareToken (some demoSecret) 5000 = .ok (Json.obj []) ∧
    prop (some (Json.obj [])) "email" = .ok none ∧
    prop (some (Json.obj [])) "role" = .ok none ∧
    authenticateToken demoEnv 5000 (bearer bareToken)
      = ⟨[(bareToken, some demoSecret)],
          .next { bearer bareToken with user := some (Json.obj []) }⟩ ∧
    (authenticateToken demoEnv 5000 (bearer bareToken)).result ≠ .respond tokenInvalid ∧
    refetchRoute credentialStore demoEnv 5000 demoStore (bearer bareToken) = userNotFound :=
  ⟨by decide, rfl, by decide, rfl, rfl, rfl, rfl, fun h => MwResult.noConfusion h, rfl⟩

/-- C10 (as amended): verification looks at the signature and at the
validity period only; the fields of the claims are not checked.  The
middleware itself hands on whatever claims `jwt.verify` gives, unchanged and
unchecked.  On the modelled verifier, every token signed under the process
secret whose claims are a JSON object and that is within its validity
period is accepted by `authenticateToken` whatever fields the claims carry
or lack, also without `email` or `role` or with a role outside the
enumeration, and the claims are handed on unchanged as `req.user`; on
`/admin` such a token is then refused with 403 by `authorize` unless its
role claim is the string `admin`. -/
theorem authenticateToken_trusts_payload (c : TokenCodec) (env : Env) (key : String)
    (fs : List (String × Json)) (now : Nat)
    (hkey : key ≠ "") (hsecret : env.jwtSecret = some key)
    (hfit : c.FitsAt key (Json.obj fs))
    (hvalid : checkValidity (Json.obj fs) now = .ok (Json.obj fs)) :
    refVerify c (jwsSign c key (Json.obj fs)) (some key) now = .ok (Json.obj fs) ∧
    authenticateToken (withTokens c env) now (bearer (jwsSign c key (Json.obj fs)))
      = ⟨[(jwsSign c key (Json.obj fs), some key)],
          .next { bearer (jwsSign c key (Json.obj fs)) with user := some (Json.obj fs) }⟩ ∧
    (fs.lookup "role" ≠ some (Json.str "admin") →
      adminRoute (withTokens c env) now (bearer (jwsSign c key (Json.obj fs)))
        = ⟨403, errorBody "Akses ditolak."⟩) ∧
    (fs.lookup "nbf" = none → fs.lookup "exp" = none →
      ∀ later, checkValidity (Json.obj fs) later = .ok (Json.obj fs)) ∧
    (∀ (anyEnv : Env) (req : Request) (t : String) (claims : Json),
      tokenOf (req.headers.lookup "authorization") = some t → t ≠ "" →
      anyEnv.jwtVerify t anyEnv.jwtSecret now = .ok claims →
      authenticateToken anyEnv now req
        = ⟨[(t, anyEnv.jwtSecret)], .next { req with user := some claims }⟩) := by
  have hver : refVerify c (jwsSign c key (Json.obj fs)) (some key) now = .ok (Json.obj fs) := by
    rw [refVerify_signed c key (Json.obj fs) now hkey hfit, hvalid]
  have hs : (withTokens c env).jwtSecret = some key := hsecret
  have hv : (withTokens c env).jwtVerify (jwsSign c key (Json.obj fs))
      (withTokens c env).jwtSecret now = .ok (Json.obj fs) := by
    rw [hs]; exact hver
  have hrun := authenticateToken_accepts (withTokens c env) now
    (bearer (jwsSign c key (Json.obj fs))) _ (Json.obj fs)
    (tokenOf_bearer _ (jwsSign_no_blank c key (Json.obj fs) hfit))
    (jwsSign_ne_empty c key (Json.obj fs)) hv
  rw [hs] at hrun
  refine ⟨hver, hrun, ?_, ?_, ?_⟩
  · intro hne
    have h := (authorize_matches "admin"
      { bearer (jwsSign c key (Json.obj fs)) with user := some (Json.obj fs) }
      (fs.lookup "role") (prop_obj fs "role")).2 hne
    simp only [adminRoute, hrun, h]
    rfl
  · intro hnbf hexp later
    simp only [checkValidity, hnbf, hexp]
  · intro anyEnv req t claims ht hne hok
    exact authenticateToken_accepts anyEnv now req t claims ht hne hok

/-- The token with the empty claims is accepted, and `/admin` refuses it
with 403 at the role check. -/
theorem authenticateToken_trusts_payload_witness :
    refVerify demoCodec (jwsSign demoCodec demoSecret (Json.obj [])) (some demoSecret) 5000
      = .ok (Json.obj []) ∧
    authenticateToken (withTokens demoCodec demoEnv) 5000
        (bearer (jwsSign demoCodec demoSecret (Json.obj [])))
      = ⟨[(jwsSign demoCodec demoSecret (Json.obj []), some demoSecret)],
          .next { bearer (jwsSign demoCodec demoSecret (Json.obj [])) with
            user := some (Json.obj []) }⟩ ∧
    adminRoute (withTokens demoCodec demoEnv) 5000
        (bearer (jwsSign demoCodec demoSecret (Json.obj [])))
      = ⟨403, errorBody "Akses ditolak."⟩ :=
  have h := authenticateToken_trusts_payload demoCodec demoEnv demoSecret [] 5000
    (by decide) rfl demoCodec_fits_bare rfl
  ⟨h.1, h.2.1, h.2.2.1 (by simp)⟩

end MonevBackend
